import Mathlib

/-!
InfluxQL token vocabulary (`influxql/token.go`).

A shallow embedding of the token constants, the display table `tokens`, the keyword
table built by `init`, and the functions `String`, `Precedence`, `IsLiteral`,
`IsOperator`, `IsKeyword` and `Lookup`, followed by the properties proved about them.

Modelling conventions:
* `Token` is Go's `int`; it is embedded as `Int`. No function of the file does arithmetic
  on a token apart from the loop counter of `init` (which runs from 31 to 50), so no
  overflow can occur and statements over all of `Int` cover every machine value.
* A Go `string` is embedded as a Lean `String`; map keys are compared for equality. A Go
  string that is not valid UTF-8 has no counterpart here; it differs from every key of the
  table, all of which are ASCII.
* An index expression `tokens[i]` panics when `i` is out of range. It is embedded as the
  fallible `tokensAt`, which returns `none` for a panic, and the functions that index
  return `Option`.
* The map `keywords` is embedded as an association list with unique keys.
-/

namespace influxql

/-- A lexical token: `type Token int`. -/
abbrev Token := Int

/-! ## Token constants (`const ( ILLEGAL Token = iota ... )`), numbered in declaration order -/

def ILLEGAL : Token := 0
def EOF : Token := 1
def WS : Token := 2

def literal_beg : Token := 3
def IDENT : Token := 4
def NUMBER : Token := 5
def DURATION : Token := 6
def STRING : Token := 7
def BADSTRING : Token := 8
def BADESCAPE : Token := 9
def TRUE : Token := 10
def FALSE : Token := 11
def literal_end : Token := 12

def operator_beg : Token := 13
def ADD : Token := 14
def SUB : Token := 15
def MUL : Token := 16
def DIV : Token := 17
def AND : Token := 18
def OR : Token := 19
def EQ : Token := 20
def NEQ : Token := 21
def LT : Token := 22
def LTE : Token := 23
def GT : Token := 24
def GTE : Token := 25
def operator_end : Token := 26

def LPAREN : Token := 27
def RPAREN : Token := 28
def COMMA : Token := 29

def keyword_beg : Token := 30
def AS : Token := 31
def ASC : Token := 32
def BY : Token := 33
def CONTINUOUS : Token := 34
def DELETE : Token := 35
def DESC : Token := 36
def DROP : Token := 37
def EXPLAIN : Token := 38
def FROM : Token := 39
def INNER : Token := 40
def JOIN : Token := 41
def LIMIT : Token := 42
def LIST : Token := 43
def MERGE : Token := 44
def ORDER : Token := 45
def QUERIES : Token := 46
def SELECT : Token := 47
def SERIES : Token := 48
def WHERE : Token := 49
def keyword_end : Token := 50

/-- Every constant of the `const` block, in the order of its declaration. -/
def declaredTokens : List Token :=
  [ILLEGAL, EOF, WS,
   literal_beg, IDENT, NUMBER, DURATION, STRING, BADSTRING, BADESCAPE, TRUE, FALSE, literal_end,
   operator_beg, ADD, SUB, MUL, DIV, AND, OR, EQ, NEQ, LT, LTE, GT, GTE, operator_end,
   LPAREN, RPAREN, COMMA,
   keyword_beg, AS, ASC, BY, CONTINUOUS, DELETE, DESC, DROP, EXPLAIN, FROM, INNER, JOIN, LIMIT,
   LIST, MERGE, ORDER, QUERIES, SELECT, SERIES, WHERE, keyword_end]

/-! ## The display table `tokens` -/

/-- The keyed elements of the composite literal `[...]string{ILLEGAL: "ILLEGAL", ...}`. -/
def tokenEntries : List (Token × String) :=
  [(ILLEGAL, "ILLEGAL"), (EOF, "EOF"), (WS, "WS"),
   (IDENT, "IDENT"), (NUMBER, "NUMBER"), (STRING, "STRING"), (TRUE, "TRUE"), (FALSE, "FALSE"),
   (ADD, "+"), (SUB, "-"), (MUL, "*"), (DIV, "/"),
   (AND, "AND"), (OR, "OR"),
   (EQ, "=="), (NEQ, "!="), (LT, "<"), (LTE, "<="), (GT, ">"), (GTE, ">="),
   (LPAREN, "("), (RPAREN, ")"), (COMMA, ","),
   (AS, "AS"), (ASC, "ASC"), (BY, "BY"), (CONTINUOUS, "CONTINUOUS"), (DELETE, "DELETE"),
   (DESC, "DESC"), (DROP, "DROP"), (EXPLAIN, "EXPLAIN"), (FROM, "FROM"), (INNER, "INNER"),
   (JOIN, "JOIN"), (LIMIT, "LIMIT"), (LIST, "LIST"), (MERGE, "MERGE"), (ORDER, "ORDER"),
   (QUERIES, "QUERIES"), (SELECT, "SELECT"), (SERIES, "SERIES"), (WHERE, "WHERE")]

/-- The value a keyed composite literal gives to index `i`: the string written for that key,
or the zero value `""` when the literal has no element with that key. -/
def entryAt (es : List (Token × String)) (i : Token) : String :=
  match es with
  | [] => ""
  | (k, s) :: rest => if k = i then s else entryAt rest i

/-- The largest key of a keyed composite literal (`0` for an empty one). -/
def maxKey (es : List (Token × String)) : Token :=
  match es with
  | [] => 0
  | (k, _) :: rest => max k (maxKey rest)

/-- The array `tokens`: an array literal of type `[...]string` has length one more than its
largest key, and holds `""` at every index the literal does not mention. -/
def tokens : List String :=
  (List.range (maxKey tokenEntries + 1).toNat).map (fun i => entryAt tokenEntries (i : Int))

/-- The index expression `tokens[i]`; `none` stands for the run-time panic on an index
outside `0 .. len(tokens) - 1`. -/
def tokensAt (i : Token) : Option String :=
  if 0 ≤ i then tokens.get? i.toNat else none

/-! ## `strings.ToUpper` and `strings.ToLower`

`init` applies both only to entries of `tokens`, all of them ASCII strings; on ASCII text the
library functions map the letters `a`..`z` and `A`..`Z` to the other case and leave every
other byte unchanged, which is what `Char.toUpper` and `Char.toLower` do. -/

def ToUpper (s : String) : String := String.mk (s.data.map Char.toUpper)

def ToLower (s : String) : String := String.mk (s.data.map Char.toLower)

/-! ## The keyword table -/

/-- A value of type `map[string]Token`: key/value pairs with pairwise different keys. -/
abbrev KeywordMap := List (String × Token)

/-- The assignment `m[k] = v`: any earlier binding of `k` is replaced. -/
def mapSet (m : KeywordMap) (k : String) (v : Token) : KeywordMap :=
  match m with
  | [] => [(k, v)]
  | (k', v') :: rest => if k' = k then (k, v) :: rest else (k', v') :: mapSet rest k v

/-- The comma-ok read `v, ok := m[k]`: `some v` when `k` is bound, `none` when it is not. -/
def mapGet (m : KeywordMap) (k : String) : Option Token :=
  match m with
  | [] => none
  | (k', v) :: rest => if k' = k then some v else mapGet rest k

/-- The two statements shared by both loops of `init`:
`keywords[strings.ToUpper(tokens[tok])] = tok; keywords[strings.ToLower(tokens[tok])] = tok`. -/
def register (m : KeywordMap) (tok : Token) : Option KeywordMap :=
  match tokensAt tok with
  | none => none
  | some s => some (mapSet (mapSet m (ToUpper s) tok) (ToLower s) tok)

/-- The values taken by the counter of `for tok := lo; tok < hi; tok++`. -/
def tokRange (lo hi : Token) : List Token :=
  (List.range (hi - lo).toNat).map (fun i => lo + (i : Int))

/-- Runs the body `register` once for each token of a list, in order; a panic ends the run. -/
def registerAll (m : KeywordMap) (toks : List Token) : Option KeywordMap :=
  match toks with
  | [] => some m
  | tok :: rest =>
    match register m tok with
    | none => none
    | some m' => registerAll m' rest

/-- The package initialiser `init`. Its argument is the value `keywords` holds beforehand,
which `keywords = make(map[string]Token)` discards. -/
def init (_old : KeywordMap) : Option KeywordMap :=
  match registerAll [] (tokRange (keyword_beg + 1) keyword_end) with
  | none => none
  | some m1 =>
    match registerAll m1 [AND, OR] with
    | none => none
    | some m2 => some (mapSet (mapSet m2 "true" TRUE) "false" FALSE)

/-- The package variable `keywords` once the program runs: Go executes `init` on the
declared (nil, hence empty) map before any other code of the package. -/
def keywords : KeywordMap := (init []).getD []

/-! ## Methods of `Token` and `Lookup` -/

/-- The method `String`, with the panic of an out-of-range index made explicit. -/
def Token.StringChecked (tok : Token) : Option String :=
  if tok ≥ 0 ∧ tok < (tokens.length : Int) then tokensAt tok else some ""

/-- The method `String` as a total function. -/
def Token.String (tok : Token) : String := (Token.StringChecked tok).getD ""

/-- The method `Precedence`. -/
def Token.Precedence (tok : Token) : Int :=
  if tok = OR then 1
  else if tok = AND then 2
  else if tok = EQ ∨ tok = NEQ ∨ tok = LT ∨ tok = LTE ∨ tok = GT ∨ tok = GTE then 3
  else if tok = ADD ∨ tok = SUB then 4
  else if tok = MUL ∨ tok = DIV then 5
  else 0

/-- The method `IsLiteral`. -/
def Token.IsLiteral (tok : Token) : Bool := decide (tok > literal_beg) && decide (tok < literal_end)

/-- The method `IsOperator`. -/
def Token.IsOperator (tok : Token) : Bool :=
  decide (tok > operator_beg) && decide (tok < operator_end)

/-- The method `IsKeyword`. -/
def Token.IsKeyword (tok : Token) : Bool := decide (tok > keyword_beg) && decide (tok < keyword_end)

/-- The function `Lookup`, reading the table it is given. -/
def LookupIn (kw : KeywordMap) (ident : String) : Token :=
  match mapGet kw ident with
  | some tok => tok
  | none => IDENT

/-- The function `Lookup` of the running program: it reads the initialised `keywords`. -/
def Lookup (ident : String) : Token := LookupIn keywords ident

/-- Equality of two strings when the case of the ASCII letters is ignored. -/
def EqualFoldASCII (a b : String) : Prop := ToLower a = ToLower b

instance (a b : String) : Decidable (EqualFoldASCII a b) := by
  unfold EqualFoldASCII; exact inferInstance

/-! ## Evaluation of the tables -/

set_option maxRecDepth 100000

theorem declaredTokens_eq : declaredTokens = (List.range 51).map (fun i => (i : Int)) := by
  decide

theorem tokens_eq : tokens =
    ["ILLEGAL", "EOF", "WS", "", "IDENT", "NUMBER", "", "STRING", "", "", "TRUE", "FALSE", "", "",
     "+", "-", "*", "/", "AND", "OR", "==", "!=", "<", "<=", ">", ">=", "", "(", ")", ",", "",
     "AS", "ASC", "BY", "CONTINUOUS", "DELETE", "DESC", "DROP", "EXPLAIN", "FROM", "INNER", "JOIN",
     "LIMIT", "LIST", "MERGE", "ORDER", "QUERIES", "SELECT", "SERIES", "WHERE"] := by
  decide

theorem tokens_length : tokens.length = 50 := by
  rw [tokens_eq]; rfl

theorem keywords_eq : keywords =
    [("AS", 31), ("as", 31), ("ASC", 32), ("asc", 32), ("BY", 33), ("by", 33),
     ("CONTINUOUS", 34), ("continuous", 34), ("DELETE", 35), ("delete", 35), ("DESC", 36),
     ("desc", 36), ("DROP", 37), ("drop", 37), ("EXPLAIN", 38), ("explain", 38), ("FROM", 39),
     ("from", 39), ("INNER", 40), ("inner", 40), ("JOIN", 41), ("join", 41), ("LIMIT", 42),
     ("limit", 42), ("LIST", 43), ("list", 43), ("MERGE", 44), ("merge", 44), ("ORDER", 45),
     ("order", 45), ("QUERIES", 46), ("queries", 46), ("SELECT", 47), ("select", 47),
     ("SERIES", 48), ("series", 48), ("WHERE", 49), ("where", 49), ("AND", 18), ("and", 18),
     ("OR", 19), ("or", 19), ("true", 10), ("false", 11)] := by
  decide

/-- The initialiser never panics, and whatever the table held before, it leaves `keywords`. -/
theorem init_eq (old : KeywordMap) : init old = some keywords := by
  have h : init old = init [] := rfl
  rw [h]
  decide

/-! ## Reading the keyword table -/

theorem mapGet_some_mem (m : KeywordMap) (k : String) (v : Token) (h : mapGet m k = some v) :
    (k, v) ∈ m := by
  induction m with
  | nil => simp [mapGet] at h
  | cons p rest ih =>
    obtain ⟨k', v'⟩ := p
    unfold mapGet at h
    split_ifs at h with hk
    · simp only [Option.some.injEq] at h
      subst hk; subst h
      exact List.mem_cons_self _ _
    · exact List.mem_cons_of_mem _ (ih h)

/-- A lookup gives `IDENT` unless the text is a key, and then it gives a value bound to it. -/
theorem Lookup_IDENT_or_mem (text : String) :
    Lookup text = IDENT ∨ (text, Lookup text) ∈ keywords := by
  unfold Lookup LookupIn
  cases h : mapGet keywords text with
  | none => exact Or.inl rfl
  | some v => exact Or.inr (mapGet_some_mem _ _ _ h)

/-- Every binding of the table is a keyword, `AND` or `OR` under the upper- or lowercase form of
its display string, or one of the two explicit bindings `"true"` and `"false"`. -/
theorem keywords_entries : ∀ p ∈ keywords,
    ((Token.IsKeyword p.2 = true ∨ p.2 = AND ∨ p.2 = OR) ∧
      (p.1 = ToUpper (Token.String p.2) ∨ p.1 = ToLower (Token.String p.2))) ∨
    p = ("true", TRUE) ∨ p = ("false", FALSE) := by
  rw [keywords_eq]; decide

/-- Both casings of the display string of a keyword, of `AND` and of `OR` are keys bound to it. -/
theorem mapGet_registered (k : Token)
    (h : Token.IsKeyword k = true ∨ k = AND ∨ k = OR) :
    mapGet keywords (ToUpper (Token.String k)) = some k ∧
      mapGet keywords (ToLower (Token.String k)) = some k := by
  rw [keywords_eq]
  rcases h with h | rfl | rfl
  · simp only [Token.IsKeyword, keyword_beg, keyword_end, Bool.and_eq_true,
      decide_eq_true_eq, Token] at h
    obtain ⟨h1, h2⟩ := h
    interval_cases k <;> decide
  · decide
  · decide

/-- The members of the counter range of the first loop of `init`. -/
theorem mem_keywordRange (k : Token) (h : Token.IsKeyword k = true) :
    k ∈ tokRange (keyword_beg + 1) keyword_end := by
  simp only [Token.IsKeyword, keyword_beg, keyword_end, Bool.and_eq_true,
    decide_eq_true_eq, Token] at h
  obtain ⟨h1, h2⟩ := h
  interval_cases k <;> decide

/-- A key that equals a keyword's display string up to ASCII case is bound to that keyword and
is its upper- or lowercase form. -/
theorem keywords_fold_unique : ∀ p ∈ keywords, ∀ k ∈ tokRange (keyword_beg + 1) keyword_end,
    EqualFoldASCII p.1 (Token.String k) →
      p.2 = k ∧ (p.1 = ToUpper (Token.String k) ∨ p.1 = ToLower (Token.String k)) := by
  rw [keywords_eq]; decide

/-! ## Reading the display table -/

theorem tokensAt_eq_none_iff (i : Token) :
    tokensAt i = none ↔ (i < 0 ∨ (tokens.length : Int) ≤ i) := by
  unfold tokensAt
  split_ifs with h
  · rw [List.get?_eq_none]
    simp only [Token] at *
    omega
  · simp only [Token] at *
    simp only [true_iff]
    omega

theorem StringChecked_outside (tok : Token) (h : tok < 0 ∨ tok ≥ 50) :
    Token.StringChecked tok = some "" := by
  unfold Token.StringChecked
  rw [tokens_length]
  rw [if_neg]
  simp only [Token] at *
  push_cast
  omega

/-! ## Band membership in numbers -/

theorem IsLiteral_iff (tok : Token) : Token.IsLiteral tok = true ↔ 3 < tok ∧ tok < 12 := by
  simp [Token.IsLiteral, literal_beg, literal_end]

theorem IsOperator_iff (tok : Token) : Token.IsOperator tok = true ↔ 13 < tok ∧ tok < 26 := by
  simp [Token.IsOperator, operator_beg, operator_end]

theorem IsKeyword_iff (tok : Token) : Token.IsKeyword tok = true ↔ 30 < tok ∧ tok < 50 := by
  simp [Token.IsKeyword, keyword_beg, keyword_end]

/-! ## Classification -/

/-- C1: each of `IsLiteral`, `IsOperator`, `IsKeyword` is true exactly on the tokens listed
for its band, which are exactly the values strictly between the band's two boundary
markers. -/
theorem classification_exact (tok : Token) :
    (Token.IsLiteral tok = true ↔
      tok = IDENT ∨ tok = NUMBER ∨ tok = DURATION ∨ tok = STRING ∨ tok = BADSTRING ∨
      tok = BADESCAPE ∨ tok = TRUE ∨ tok = FALSE) ∧
    (Token.IsOperator tok = true ↔
      tok = ADD ∨ tok = SUB ∨ tok = MUL ∨ tok = DIV ∨ tok = AND ∨ tok = OR ∨ tok = EQ ∨
      tok = NEQ ∨ tok = LT ∨ tok = LTE ∨ tok = GT ∨ tok = GTE) ∧
    (Token.IsKeyword tok = true ↔
      tok = AS ∨ tok = ASC ∨ tok = BY ∨ tok = CONTINUOUS ∨ tok = DELETE ∨ tok = DESC ∨
      tok = DROP ∨ tok = EXPLAIN ∨ tok = FROM ∨ tok = INNER ∨ tok = JOIN ∨ tok = LIMIT ∨
      tok = LIST ∨ tok = MERGE ∨ tok = ORDER ∨ tok = QUERIES ∨ tok = SELECT ∨ tok = SERIES ∨
      tok = WHERE) ∧
    (Token.IsLiteral tok = true ↔ literal_beg < tok ∧ tok < literal_end) ∧
    (Token.IsOperator tok = true ↔ operator_beg < tok ∧ tok < operator_end) ∧
    (Token.IsKeyword tok = true ↔ keyword_beg < tok ∧ tok < keyword_end) := by
  rw [IsLiteral_iff, IsOperator_iff, IsKeyword_iff]
  simp only [IDENT, NUMBER, DURATION, STRING, BADSTRING, BADESCAPE, TRUE, FALSE, ADD, SUB, MUL,
    DIV, AND, OR, EQ, NEQ, LT, LTE, GT, GTE, AS, ASC, BY, CONTINUOUS, DELETE, DESC, DROP, EXPLAIN,
    FROM, INNER, JOIN, LIMIT, LIST, MERGE, ORDER, QUERIES, SELECT, SERIES, WHERE, literal_beg,
    literal_end, operator_beg, operator_end, keyword_beg, keyword_end, Token]
  refine ⟨?_, ?_, ?_, ?_, ?_, ?_⟩ <;> first | omega | trivial

/-- C10: on a boundary marker, a special token, a punctuation token, a negative value or a
value above `keyword_end`, `IsLiteral`, `IsOperator` and `IsKeyword` are all false. -/
theorem classification_false_outside (tok : Token)
    (h : tok = literal_beg ∨ tok = literal_end ∨ tok = operator_beg ∨ tok = operator_end ∨
      tok = keyword_beg ∨ tok = keyword_end ∨ tok = ILLEGAL ∨ tok = EOF ∨ tok = WS ∨
      tok = LPAREN ∨ tok = RPAREN ∨ tok = COMMA ∨ tok < 0 ∨ tok > keyword_end) :
    Token.IsLiteral tok = false ∧ Token.IsOperator tok = false ∧
      Token.IsKeyword tok = false := by
  simp only [← Bool.not_eq_true, IsLiteral_iff, IsOperator_iff, IsKeyword_iff]
  simp only [literal_beg, literal_end, operator_beg, operator_end, keyword_beg, keyword_end,
    ILLEGAL, EOF, WS, LPAREN, RPAREN, COMMA, Token] at h
  simp only [Token]
  refine ⟨?_, ?_, ?_⟩ <;> omega

theorem classification_false_outside_witness :
    Token.IsLiteral keyword_end = false ∧ Token.IsOperator keyword_end = false ∧
      Token.IsKeyword keyword_end = false :=
  classification_false_outside keyword_end (by decide)

/-! ## Precedence -/

/-- C2: `Precedence` is 1 exactly on `OR`, 2 exactly on `AND`, 3 exactly on the six
comparison operators, 4 exactly on `ADD` and `SUB`, 5 exactly on `MUL` and `DIV`, and 0 on
every other integer; so the levels climb `OR < AND < comparison < additive < multiplicative`. -/
theorem Precedence_levels (tok : Token) :
    (tok = OR → Token.Precedence tok = 1) ∧
    (tok = AND → Token.Precedence tok = 2) ∧
    (tok = EQ ∨ tok = NEQ ∨ tok = LT ∨ tok = LTE ∨ tok = GT ∨ tok = GTE →
      Token.Precedence tok = 3) ∧
    (tok = ADD ∨ tok = SUB → Token.Precedence tok = 4) ∧
    (tok = MUL ∨ tok = DIV → Token.Precedence tok = 5) ∧
    (¬ (tok = OR ∨ tok = AND ∨ tok = EQ ∨ tok = NEQ ∨ tok = LT ∨ tok = LTE ∨ tok = GT ∨
        tok = GTE ∨ tok = ADD ∨ tok = SUB ∨ tok = MUL ∨ tok = DIV) →
      Token.Precedence tok = 0) ∧
    (Token.Precedence OR < Token.Precedence AND ∧
      Token.Precedence AND < Token.Precedence EQ ∧
      Token.Precedence EQ = Token.Precedence NEQ ∧
      Token.Precedence NEQ = Token.Precedence LT ∧
      Token.Precedence LT = Token.Precedence LTE ∧
      Token.Precedence LTE = Token.Precedence GT ∧
      Token.Precedence GT = Token.Precedence GTE ∧
      Token.Precedence GTE < Token.Precedence ADD ∧
      Token.Precedence ADD = Token.Precedence SUB ∧
      Token.Precedence SUB < Token.Precedence MUL ∧
      Token.Precedence MUL = Token.Precedence DIV) := by
  refine ⟨?_, ?_, ?_, ?_, ?_, ?_, by decide⟩
  · rintro rfl; decide
  · rintro rfl; decide
  · rintro (rfl | rfl | rfl | rfl | rfl | rfl) <;> decide
  · rintro (rfl | rfl) <;> decide
  · rintro (rfl | rfl) <;> decide
  · intro h
    simp only [not_or] at h
    obtain ⟨h1, h2, h3, h4, h5, h6, h7, h8, h9, h10, h11, h12⟩ := h
    simp [Token.Precedence, h1, h2, h3, h4, h5, h6, h7, h8, h9, h10, h11, h12]

/-- One token of each level of C2, and a keyword for level 0. -/
theorem Precedence_levels_witness :
    Token.Precedence OR = 1 ∧ Token.Precedence AND = 2 ∧ Token.Precedence GTE = 3 ∧
      Token.Precedence SUB = 4 ∧ Token.Precedence DIV = 5 ∧ Token.Precedence SELECT = 0 :=
  ⟨(Precedence_levels OR).1 rfl, (Precedence_levels AND).2.1 rfl,
    (Precedence_levels GTE).2.2.1 (by decide), (Precedence_levels SUB).2.2.2.1 (by decide),
    (Precedence_levels DIV).2.2.2.2.1 (by decide),
    (Precedence_levels SELECT).2.2.2.2.2.1 (by decide)⟩

/-! ## Display strings -/

/-- C8: `String` is non-empty on every keyword, every operator and on `LPAREN`, `RPAREN`,
`COMMA`; it is empty on `DURATION`, `BADSTRING` and `BADESCAPE`. -/
theorem String_nonempty_or_empty :
    (∀ tok : Token,
      (Token.IsKeyword tok = true ∨ Token.IsOperator tok = true ∨ tok = LPAREN ∨
        tok = RPAREN ∨ tok = COMMA) → Token.String tok ≠ "") ∧
    Token.String DURATION = "" ∧ Token.String BADSTRING = "" ∧
      Token.String BADESCAPE = "" := by
  refine ⟨?_, by decide, by decide, by decide⟩
  intro tok h
  rw [IsKeyword_iff, IsOperator_iff] at h
  simp only [LPAREN, RPAREN, COMMA, Token] at h
  have h1 : (13 : Int) < tok := by omega
  have h2 : (50 : Int) > tok := by omega
  have h3 : ¬ ((26 : Int) = tok) := by omega
  have h4 : ¬ ((30 : Int) = tok) := by omega
  interval_cases tok <;> first | decide | exact absurd rfl h3 | exact absurd rfl h4

/-- The non-empty half of C8 at the keyword `SELECT`. -/
theorem String_nonempty_or_empty_witness : Token.String SELECT ≠ "" :=
  String_nonempty_or_empty.1 SELECT (Or.inl (by decide))

/-- C9: `tokens` has 50 entries, the last at index `WHERE`; indexing it panics exactly outside
`0 .. 49`; `String` indexes only inside that range, so it never panics and always returns; and
outside the range, `keyword_end` included, it returns the empty string. -/
theorem String_total_in_bounds :
    tokens.length = 50 ∧ WHERE + 1 = (tokens.length : Int) ∧
    (∀ i : Token, tokensAt i = none ↔ (i < 0 ∨ 50 ≤ i)) ∧
    (∀ tok : Token, 0 ≤ tok ∧ tok < 50 →
      Token.StringChecked tok = tokensAt tok ∧ tokensAt tok ≠ none) ∧
    (∀ tok : Token, ¬ (0 ≤ tok ∧ tok < 50) → Token.StringChecked tok = some "") ∧
    (∀ tok : Token, Token.StringChecked tok = some (Token.String tok)) ∧
    (∀ tok : Token, tok < 0 ∨ tok ≥ 50 → Token.String tok = "") ∧
    keyword_end = 50 ∧ Token.String keyword_end = "" := by
  have hidx : ∀ i : Token, tokensAt i = none ↔ (i < 0 ∨ 50 ≤ i) := by
    intro i
    have h := tokensAt_eq_none_iff i
    rw [tokens_length] at h
    exact h
  have hin : ∀ tok : Token, 0 ≤ tok ∧ tok < 50 →
      Token.StringChecked tok = tokensAt tok ∧ tokensAt tok ≠ none := by
    intro tok h
    constructor
    · unfold Token.StringChecked
      rw [tokens_length, if_pos]
      exact ⟨h.1, h.2⟩
    · intro hn
      have := (hidx tok).1 hn
      simp only [Token] at *
      omega
  have hout : ∀ tok : Token, ¬ (0 ≤ tok ∧ tok < 50) → Token.StringChecked tok = some "" := by
    intro tok h
    apply StringChecked_outside
    simp only [Token] at *
    omega
  have htot : ∀ tok : Token, Token.StringChecked tok = some (Token.String tok) := by
    intro tok
    unfold Token.String
    by_cases h : 0 ≤ tok ∧ tok < 50
    · obtain ⟨h1, h2⟩ := hin tok h
      cases hs : Token.StringChecked tok with
      | none => rw [hs] at h1; exact absurd h1.symm h2
      | some s => rfl
    · rw [hout tok h]; rfl
  refine ⟨tokens_length, ?_, hidx, hin, hout, htot, ?_, rfl, by decide⟩
  · rw [tokens_length]; rfl
  · intro tok h
    unfold Token.String
    rw [StringChecked_outside tok h]
    rfl

/-- The out-of-range half of C9 at `-1`, and the in-range half at `WHERE`. -/
theorem String_total_in_bounds_witness :
    Token.String (-1) = "" ∧ Token.StringChecked WHERE = tokensAt WHERE :=
  ⟨String_total_in_bounds.2.2.2.2.2.2.1 (-1) (Or.inl (by decide)),
    (String_total_in_bounds.2.2.2.1 WHERE (by decide)).1⟩

/-! ## Keyword resolution -/

/-- C3: for a keyword, `AND` or `OR`, `Lookup` of the uppercase form and of the lowercase form
of its display string gives the token back; so `"SELECT"` and `"select"` give `SELECT` and
`"and"` gives `AND`. -/
theorem Lookup_roundtrip (k : Token)
    (h : Token.IsKeyword k = true ∨ k = AND ∨ k = OR) :
    Lookup (ToUpper (Token.String k)) = k ∧ Lookup (ToLower (Token.String k)) = k ∧
      Lookup "SELECT" = SELECT ∧ Lookup "select" = SELECT ∧ Lookup "and" = AND := by
  obtain ⟨hu, hl⟩ := mapGet_registered k h
  refine ⟨?_, ?_, by decide, by decide, by decide⟩
  · unfold Lookup LookupIn; rw [hu]
  · unfold Lookup LookupIn; rw [hl]

/-- C3 at the keyword `WHERE`. -/
theorem Lookup_roundtrip_witness :
    Lookup (ToUpper (Token.String WHERE)) = WHERE ∧
      Lookup (ToLower (Token.String WHERE)) = WHERE :=
  ⟨(Lookup_roundtrip WHERE (Or.inl (by decide))).1,
    (Lookup_roundtrip WHERE (Or.inl (by decide))).2.1⟩

/-- C4: a text that is neither the uppercase nor the lowercase form of the display string of
a keyword, of `AND` or of `OR`, and is neither `"true"` nor `"false"`, resolves to `IDENT`;
so do `"SeLeCt"`, `"Select"`, `"cpu_usage"`, `"cpu"` and `"value"`. -/
theorem Lookup_unregistered :
    (∀ text : String,
      (∀ k : Token, Token.IsKeyword k = true ∨ k = AND ∨ k = OR →
        text ≠ ToUpper (Token.String k) ∧ text ≠ ToLower (Token.String k)) →
      text ≠ "true" → text ≠ "false" → Lookup text = IDENT) ∧
    Lookup "SeLeCt" = IDENT ∧ Lookup "Select" = IDENT ∧ Lookup "cpu_usage" = IDENT ∧
      Lookup "cpu" = IDENT ∧ Lookup "value" = IDENT := by
  refine ⟨?_, by decide, by decide, by decide, by decide, by decide⟩
  intro text hk ht hf
  rcases Lookup_IDENT_or_mem text with h | h
  · exact h
  · rcases keywords_entries _ h with ⟨hband, hform⟩ | hp | hp
    · obtain ⟨hu, hl⟩ := hk _ hband
      rcases hform with hform | hform
      · exact absurd hform hu
      · exact absurd hform hl
    · exact absurd (congrArg Prod.fst hp) ht
    · exact absurd (congrArg Prod.fst hp) hf

/-- The general half of C4 at the text `"cpu_usage"`, which is no registered form. -/
theorem Lookup_unregistered_witness : Lookup "cpu_usage" = IDENT :=
  Lookup_unregistered.1 "cpu_usage"
    (by
      intro k hk
      have hmem : k ∈ tokRange (keyword_beg + 1) keyword_end ∨ k = AND ∨ k = OR :=
        hk.imp_left (mem_keywordRange k)
      have hall : ∀ t ∈ tokRange (keyword_beg + 1) keyword_end ++ [AND, OR],
          "cpu_usage" ≠ ToUpper (Token.String t) ∧ "cpu_usage" ≠ ToLower (Token.String t) := by
        decide
      apply hall
      rcases hmem with hm | rfl | rfl
      · exact List.mem_append_left _ hm
      · decide
      · decide)
    (by decide) (by decide)

/-- C5: `Lookup` gives `TRUE` exactly on the text `"true"` and `FALSE` exactly on the text
`"false"`; the mixed-case `"True"` gives `IDENT`. -/
theorem Lookup_boolean_lowercase_only (text : String) :
    (Lookup text = TRUE ↔ text = "true") ∧ (Lookup text = FALSE ↔ text = "false") ∧
      Lookup "True" = IDENT := by
  refine ⟨⟨?_, ?_⟩, ⟨?_, ?_⟩, by decide⟩
  · intro h
    rcases Lookup_IDENT_or_mem text with hi | hm
    · rw [h] at hi; exact absurd hi (by decide)
    · rw [h] at hm
      rcases keywords_entries _ hm with ⟨hband, _⟩ | hp | hp
      · exact absurd hband
          (by decide : ¬ (Token.IsKeyword TRUE = true ∨ TRUE = AND ∨ TRUE = OR))
      · exact congrArg Prod.fst hp
      · exact absurd (congrArg Prod.snd hp) (by decide : ¬ TRUE = FALSE)
  · rintro rfl; decide
  · intro h
    rcases Lookup_IDENT_or_mem text with hi | hm
    · rw [h] at hi; exact absurd hi (by decide)
    · rw [h] at hm
      rcases keywords_entries _ hm with ⟨hband, _⟩ | hp | hp
      · exact absurd hband
          (by decide : ¬ (Token.IsKeyword FALSE = true ∨ FALSE = AND ∨ FALSE = OR))
      · exact absurd (congrArg Prod.snd hp) (by decide : ¬ FALSE = TRUE)
      · exact congrArg Prod.fst hp
  · rintro rfl; decide

/-- Against C6: the uppercase forms `"TRUE"` and `"FALSE"` of the display strings of the
boolean literals are not keys of the table; `Lookup` resolves both to `IDENT`. -/
theorem Lookup_uppercase_boolean_is_IDENT :
    ToUpper (Token.String TRUE) = "TRUE" ∧ ToUpper (Token.String FALSE) = "FALSE" ∧
    Lookup "TRUE" = IDENT ∧ Lookup "FALSE" = IDENT ∧
    ¬ (Lookup "TRUE" = TRUE ∧ Lookup "true" = TRUE ∧ Lookup "FALSE" = FALSE ∧
        Lookup "false" = FALSE) := by
  decide

/-- C6 as amended: `init` always produces the table `keywords`, which binds `TRUE` and `FALSE`
under the lowercase keys `"true"` and `"false"` only: no other key is bound to either, the
uppercase forms of their display strings are unbound, and `Lookup` gives `TRUE` on `"true"`,
`FALSE` on `"false"` and `IDENT` on `"TRUE"` and `"FALSE"`. -/
theorem boolean_literals_registered_lowercase :
    (∀ old : KeywordMap, init old = some keywords) ∧
    mapGet keywords "true" = some TRUE ∧ mapGet keywords "false" = some FALSE ∧
    mapGet keywords (ToUpper (Token.String TRUE)) = none ∧
    mapGet keywords (ToUpper (Token.String FALSE)) = none ∧
    (∀ p ∈ keywords, (p.2 = TRUE ↔ p.1 = "true") ∧ (p.2 = FALSE ↔ p.1 = "false")) ∧
    Lookup "true" = TRUE ∧ Lookup "false" = FALSE ∧
    Lookup "TRUE" = IDENT ∧ Lookup "FALSE" = IDENT := by
  refine ⟨init_eq, by decide, by decide, by decide, by decide, ?_, by decide, by decide,
    by decide, by decide⟩
  rw [keywords_eq]; decide

/-- Against C7: `"SeLeCt"` equals the display string of the keyword `SELECT` when ASCII case is
ignored, and `Lookup` resolves it to `IDENT`, not to `SELECT`. -/
theorem Lookup_mixed_case_keyword_is_IDENT :
    Token.IsKeyword SELECT = true ∧ EqualFoldASCII "SeLeCt" (Token.String SELECT) ∧
      Lookup "SeLeCt" = IDENT ∧ Lookup "SeLeCt" ≠ SELECT := by
  decide

/-- C7 as amended: for a keyword `k` and a text that equals `String(k)` when ASCII case is
ignored, `Lookup` gives `k` when the text is the uppercase or the lowercase form of
`String(k)`, and `IDENT` for every other casing. -/
theorem Lookup_keyword_two_casings (k : Token) (text : String)
    (hk : Token.IsKeyword k = true) (hfold : EqualFoldASCII text (Token.String k)) :
    Lookup text =
      if text = ToUpper (Token.String k) ∨ text = ToLower (Token.String k) then k
      else IDENT := by
  obtain ⟨hu, hl⟩ := mapGet_registered k (Or.inl hk)
  split_ifs with hc
  · rcases hc with rfl | rfl
    · unfold Lookup LookupIn; rw [hu]
    · unfold Lookup LookupIn; rw [hl]
  · rcases Lookup_IDENT_or_mem text with h | h
    · exact h
    · exact absurd (keywords_fold_unique _ h k (mem_keywordRange k hk) hfold).2 hc

/-- C7 as amended at `SELECT`: the lowercase spelling resolves, the mixed-case one does not. -/
theorem Lookup_keyword_two_casings_witness :
    Lookup "select" = SELECT ∧ Lookup "SeLeCt" = IDENT :=
  ⟨Lookup_keyword_two_casings SELECT "select" (by decide) (by decide),
    Lookup_keyword_two_casings SELECT "SeLeCt" (by decide) (by decide)⟩

/-! ## Bands and precedence together -/

/-- C11: the six boundary markers are strictly increasing in the order literal, operator,
keyword, and no integer satisfies two of `IsLiteral`, `IsOperator`, `IsKeyword`. -/
theorem bands_ordered_disjoint (tok : Token) :
    (literal_beg < literal_end ∧ literal_end < operator_beg ∧ operator_beg < operator_end ∧
      operator_end < keyword_beg ∧ keyword_beg < keyword_end) ∧
    ¬ (Token.IsLiteral tok = true ∧ Token.IsOperator tok = true) ∧
    ¬ (Token.IsLiteral tok = true ∧ Token.IsKeyword tok = true) ∧
    ¬ (Token.IsOperator tok = true ∧ Token.IsKeyword tok = true) := by
  refine ⟨by decide, ?_, ?_, ?_⟩
  all_goals
    simp only [IsLiteral_iff, IsOperator_iff, IsKeyword_iff, Token]
    omega

/-- C12: `Precedence` is 0 exactly where `IsOperator` is false, and lies between 1 and 5 on
every token of the operator band. -/
theorem Precedence_zero_iff_not_operator (tok : Token) :
    (Token.Precedence tok = 0 ↔ Token.IsOperator tok = false) ∧
    (Token.IsOperator tok = true →
      1 ≤ Token.Precedence tok ∧ Token.Precedence tok ≤ 5) := by
  by_cases hop : Token.IsOperator tok = true
  · have hb := (IsOperator_iff tok).1 hop
    simp only [Token] at hb
    obtain ⟨h1, h2⟩ := hb
    have h2' : (26 : Int) > tok := h2
    interval_cases tok <;> decide
  · have hz : Token.Precedence tok = 0 := by
      rw [IsOperator_iff] at hop
      simp only [Token.Precedence, OR, AND, EQ, NEQ, LT, LTE, GT, GTE, ADD, SUB, MUL, DIV]
      simp only [Token] at *
      repeat (rw [if_neg (by omega)])
    rw [Bool.not_eq_true] at hop
    exact ⟨⟨fun _ => hop, fun _ => hz⟩, fun h => absurd h (by rw [hop]; decide)⟩

/-- C12 at `MUL` (an operator, level 5) and at `LPAREN` (no operator, level 0). -/
theorem Precedence_zero_iff_not_operator_witness :
    (1 ≤ Token.Precedence MUL ∧ Token.Precedence MUL ≤ 5) ∧ Token.Precedence LPAREN = 0 :=
  ⟨(Precedence_zero_iff_not_operator MUL).2 (by decide),
    (Precedence_zero_iff_not_operator LPAREN).1.2 (by decide)⟩

/-- C13: `String` renders every operator and punctuation token as the symbol of its
declaration comment. -/
theorem String_operator_symbols :
    Token.String ADD = "+" ∧ Token.String SUB = "-" ∧ Token.String MUL = "*" ∧
    Token.String DIV = "/" ∧ Token.String AND = "AND" ∧ Token.String OR = "OR" ∧
    Token.String EQ = "==" ∧ Token.String NEQ = "!=" ∧ Token.String LT = "<" ∧
    Token.String LTE = "<=" ∧ Token.String GT = ">" ∧ Token.String GTE = ">=" ∧
    Token.String LPAREN = "(" ∧ Token.String RPAREN = ")" ∧ Token.String COMMA = "," := by
  decide

/-! ## Initialisation -/

/-- C14: whatever the table held, `init` returns, and its result does not depend on the prior
table; running it again on its own result returns the same table, so the two runs agree on
every key and `Lookup` reads the same token from either. -/
theorem init_idempotent (old : KeywordMap) :
    (∃ once twice : KeywordMap, init old = some once ∧ init once = some twice ∧
      twice = once ∧
      (∀ text : String, mapGet twice text = mapGet once text) ∧
      (∀ text : String, LookupIn twice text = LookupIn once text) ∧
      (∀ text : String, LookupIn once text = Lookup text)) ∧
    (init old).bind init = init old ∧
    (∀ other : KeywordMap, init other = init old) := by
  refine ⟨⟨keywords, keywords, init_eq old, init_eq keywords, rfl, fun _ => rfl, fun _ => rfl,
    fun _ => rfl⟩, ?_, ?_⟩
  · rw [init_eq old, Option.some_bind, init_eq keywords]
  · intro other
    rw [init_eq old, init_eq other]

/-! ## `String` and `Lookup` together -/

theorem mem_tokRange (lo hi a : Int) (h1 : lo ≤ a) (h2 : a < hi) : a ∈ tokRange lo hi := by
  obtain ⟨n, hn⟩ := Int.eq_ofNat_of_zero_le (show (0 : Int) ≤ a - lo by omega)
  obtain ⟨m, hm⟩ := Int.eq_ofNat_of_zero_le (show (0 : Int) ≤ hi - lo by omega)
  simp only [tokRange, hm, Int.toNat_ofNat]
  simp
  exact ⟨(n : Int), ⟨n, by omega, rfl⟩, by omega⟩

/-- A non-empty display string belongs to a token of the table's index range. -/
theorem String_ne_empty_range (a : Token) (h : Token.String a ≠ "") : a ∈ tokRange 0 50 := by
  by_cases hr : a < 0 ∨ a ≥ 50
  · exact absurd (by unfold Token.String; rw [StringChecked_outside a hr]; rfl) h
  · apply mem_tokRange
    · simp only [Token] at *; omega
    · simp only [Token] at *; omega

/-- What `Lookup` gives on the display string of each token of the table's index range. -/
theorem Lookup_String_range : ∀ tok ∈ tokRange 0 50,
    Lookup (Token.String tok) =
      if Token.IsKeyword tok = true ∨ tok = AND ∨ tok = OR then tok else IDENT := by
  decide

/-- Two tokens of the index range with one non-empty display string are one token. -/
theorem String_injective_range : ∀ a ∈ tokRange 0 50, ∀ b ∈ tokRange 0 50,
    Token.String a ≠ "" → Token.String a = Token.String b → a = b := by
  decide

/-- Every binding of the table names a keyword, `AND`, `OR`, `TRUE` or `FALSE`, under its
display string or the lowercase form of it, and the uppercase form of the key is the display
string. -/
theorem keywords_sound : ∀ p ∈ keywords,
    (Token.IsKeyword p.2 = true ∨ p.2 = AND ∨ p.2 = OR ∨ p.2 = TRUE ∨ p.2 = FALSE) ∧
    (p.1 = Token.String p.2 ∨ p.1 = ToLower (Token.String p.2)) ∧
    ToUpper p.1 = Token.String p.2 := by
  rw [keywords_eq]; decide

/-- C15: `Lookup` of the display string of a token gives the token back when it is a keyword,
`AND` or `OR`, and `IDENT` for every other integer; so it gives `IDENT` on the display strings
of `TRUE` and `FALSE` and on the empty string, which is no key of the table. -/
theorem Lookup_String_composition (tok : Token) :
    Lookup (Token.String tok) =
      (if Token.IsKeyword tok = true ∨ tok = AND ∨ tok = OR then tok else IDENT) ∧
    Lookup (Token.String TRUE) = IDENT ∧ Lookup (Token.String FALSE) = IDENT ∧
    Lookup "" = IDENT ∧ (∀ p ∈ keywords, p.1 ≠ "") := by
  refine ⟨?_, by decide, by decide, by decide, by rw [keywords_eq]; decide⟩
  by_cases hr : tok < 0 ∨ tok ≥ 50
  · have hs : Token.String tok = "" := by
      unfold Token.String; rw [StringChecked_outside tok hr]; rfl
    have hb : ¬ (Token.IsKeyword tok = true ∨ tok = AND ∨ tok = OR) := by
      rw [IsKeyword_iff]
      simp only [AND, OR, Token] at *
      omega
    rw [hs, if_neg hb]
    decide
  · apply Lookup_String_range
    apply mem_tokRange
    · simp only [Token] at *; omega
    · simp only [Token] at *; omega

/-- C16: when `Lookup` gives a token other than `IDENT`, that token is a keyword, `AND`, `OR`,
`TRUE` or `FALSE`, the text is its display string or the lowercase form of it, and the
uppercase form of the text is its display string; `Lookup` therefore never gives a special
token, a punctuation token, an arithmetic or comparison operator, another literal than
`IDENT`, `TRUE`, `FALSE`, or a boundary marker. -/
theorem Lookup_never_wrong :
    (∀ (text : String) (k : Token), Lookup text = k → k ≠ IDENT →
      (Token.IsKeyword k = true ∨ k = AND ∨ k = OR ∨ k = TRUE ∨ k = FALSE) ∧
      (text = Token.String k ∨ text = ToLower (Token.String k)) ∧
      ToUpper text = Token.String k) ∧
    (∀ text : String, Lookup text ∉
      [ILLEGAL, EOF, WS, LPAREN, RPAREN, COMMA, ADD, SUB, MUL, DIV, EQ, NEQ, LT, LTE, GT, GTE,
       NUMBER, DURATION, STRING, BADSTRING, BADESCAPE, literal_beg, literal_end, operator_beg,
       operator_end, keyword_beg, keyword_end]) := by
  have hmain : ∀ (text : String) (k : Token), Lookup text = k → k ≠ IDENT →
      (Token.IsKeyword k = true ∨ k = AND ∨ k = OR ∨ k = TRUE ∨ k = FALSE) ∧
      (text = Token.String k ∨ text = ToLower (Token.String k)) ∧
      ToUpper text = Token.String k := by
    intro text k hl hk
    rcases Lookup_IDENT_or_mem text with h | h
    · exact absurd (hl ▸ h) hk
    · rw [hl] at h
      exact keywords_sound _ h
  refine ⟨hmain, ?_⟩
  intro text hmem
  by_cases hi : Lookup text = IDENT
  · rw [hi] at hmem
    exact absurd hmem (by decide)
  · have hband := (hmain text (Lookup text) rfl hi).1
    rw [IsKeyword_iff] at hband
    have key : ∀ v : Int,
        (30 < v ∧ v < 50 ∨ v = 18 ∨ v = 19 ∨ v = 10 ∨ v = 11) →
        v ∈ ([0, 1, 2, 27, 28, 29, 14, 15, 16, 17, 20, 21, 22, 23, 24, 25, 5, 6, 7, 8, 9, 3, 12,
          13, 26, 30, 50] : List Int) → False := by
      intro v h1 h2
      simp only [List.mem_cons, List.mem_singleton, List.not_mem_nil, or_false] at h2
      omega
    exact key (Lookup text) hband hmem

/-- C16 at the text `"select"`. -/
theorem Lookup_never_wrong_witness :
    Token.IsKeyword SELECT = true ∨ SELECT = AND ∨ SELECT = OR ∨ SELECT = TRUE ∨
      SELECT = FALSE :=
  (Lookup_never_wrong.1 "select" SELECT (by decide) (by decide)).1

/-- C17: a non-empty display string belongs to one token only; the uppercase and lowercase
forms of the display strings of two different tokens among the keywords, `AND` and `OR` are
all different, and different from `"true"` and `"false"`; so every binding `init` writes is
still in the table it returns, whose size is the number of writes. -/
theorem display_strings_unambiguous :
    (∀ a b : Token, Token.String a ≠ "" → Token.String a = Token.String b → a = b) ∧
    (∀ a b : Token, (Token.IsKeyword a = true ∨ a = AND ∨ a = OR) →
      (Token.IsKeyword b = true ∨ b = AND ∨ b = OR) → a ≠ b →
      ToUpper (Token.String a) ≠ ToUpper (Token.String b) ∧
      ToUpper (Token.String a) ≠ ToLower (Token.String b) ∧
      ToLower (Token.String a) ≠ ToUpper (Token.String b) ∧
      ToLower (Token.String a) ≠ ToLower (Token.String b)) ∧
    (∀ a : Token, (Token.IsKeyword a = true ∨ a = AND ∨ a = OR) →
      "true" ≠ ToUpper (Token.String a) ∧ "true" ≠ ToLower (Token.String a) ∧
      "false" ≠ ToUpper (Token.String a) ∧ "false" ≠ ToLower (Token.String a)) ∧
    "true" ≠ "false" ∧
    (∀ a : Token, (Token.IsKeyword a = true ∨ a = AND ∨ a = OR) →
      mapGet keywords (ToUpper (Token.String a)) = some a ∧
      mapGet keywords (ToLower (Token.String a)) = some a) ∧
    mapGet keywords "true" = some TRUE ∧ mapGet keywords "false" = some FALSE ∧
    keywords.length = 2 * ((tokRange (keyword_beg + 1) keyword_end).length + 2) + 2 := by
  have hT : mapGet keywords "true" = some TRUE := by decide
  have hF : mapGet keywords "false" = some FALSE := by decide
  have hne : ∀ (a : Token) (s : String) (v : Token),
      (Token.IsKeyword a = true ∨ a = AND ∨ a = OR) → mapGet keywords s = some v → a ≠ v →
      s ≠ ToUpper (Token.String a) ∧ s ≠ ToLower (Token.String a) := by
    intro a s v ha hs hav
    obtain ⟨hu, hl⟩ := mapGet_registered a ha
    constructor
    · intro h; rw [h, hu] at hs; exact hav (Option.some.inj hs)
    · intro h; rw [h, hl] at hs; exact hav (Option.some.inj hs)
  refine ⟨?_, ?_, ?_, by decide, mapGet_registered, hT, hF, by decide⟩
  · intro a b ha hab
    have hb : Token.String b ≠ "" := hab ▸ ha
    exact String_injective_range a (String_ne_empty_range a ha) b
      (String_ne_empty_range b hb) ha hab
  · intro a b ha hb hab
    obtain ⟨hu, hl⟩ := mapGet_registered a ha
    obtain ⟨h1, h2⟩ := hne b _ a hb hu (Ne.symm hab)
    obtain ⟨h3, h4⟩ := hne b _ a hb hl (Ne.symm hab)
    exact ⟨h1, h2, h3, h4⟩
  · intro a ha
    have haT : a ≠ TRUE := by
      rintro rfl; exact absurd ha (by decide)
    have haF : a ≠ FALSE := by
      rintro rfl; exact absurd ha (by decide)
    obtain ⟨h1, h2⟩ := hne a _ TRUE ha hT haT
    obtain ⟨h3, h4⟩ := hne a _ FALSE ha hF haF
    exact ⟨h1, h2, h3, h4⟩

/-- C17 at the keywords `AS` and `ASC`. -/
theorem display_strings_unambiguous_witness :
    ToLower (Token.String AS) ≠ ToLower (Token.String ASC) :=
  (display_strings_unambiguous.2.1 AS ASC (Or.inl (by decide)) (Or.inl (by decide))
    (by decide)).2.2.2

end influxql
